import Mathlib

/-!
# duitdraw: the `Display` methods of `display.go`

A shallow embedding of `ScaleSize`, `ReadSnarf`, `WriteSnarf` and `AllocImage`
from `src/display.go`, and the properties of them that the specification states.

Go's `int` is modelled as a 64 bit two's complement integer: the values are
mathematical integers, and the result of every arithmetic operation is wrapped
back into the range `[-2^63, 2^63)`.
-/

set_option autoImplicit false
set_option linter.dupNamespace false

namespace Duitdraw

/-! ## Go machine integers -/

/-- The smallest value of Go's `int` (64 bit). -/
def minInt : Int := -(2 ^ 63)

/-- The largest value of Go's `int` (64 bit). -/
def maxInt : Int := 2 ^ 63 - 1

/-- A mathematical integer that is representable as a Go `int`. -/
def InIntRange (x : Int) : Prop := minInt ≤ x ∧ x ≤ maxInt

instance (x : Int) : Decidable (InIntRange x) := by
  unfold InIntRange; infer_instance

/-- Two's complement wrap-around of a mathematical integer into Go's `int`. -/
def wrapInt (x : Int) : Int := (x + 2 ^ 63) % 2 ^ 64 - 2 ^ 63

/-- Go `a * b` on `int`. -/
def goMul (a b : Int) : Int := wrapInt (a * b)

/-- Go `a + b` on `int`. -/
def goAdd (a b : Int) : Int := wrapInt (a + b)

/-- Go `a - b` on `int`. -/
def goSub (a b : Int) : Int := wrapInt (a - b)

/-- Go `a / b` on `int`: the quotient is truncated toward zero. -/
def goDiv (a b : Int) : Int := wrapInt (Int.tdiv a b)

/-! ## `Display` and `ScaleSize` -/

/-- Go `const DefaultDPI = 100` -/
def DefaultDPI : Int := 100

/-- Go `const DefaultFontSize = 10` -/
def DefaultFontSize : Int := 10

/-- The `Display` struct; of its fields only `DPI` is read by the functions
embedded here, the others are handles into the window library. -/
structure Display where
  DPI : Int
  deriving DecidableEq, Repr

/-- Go `func (d *Display) ScaleSize(n int) int`; a nil receiver is `none`. -/
def ScaleSize (d : Option Display) (n : Int) : Int :=
  match d with
  | none => n
  | some d =>
    if d.DPI ≤ DefaultDPI then n
    else goDiv (goAdd (goMul n d.DPI) (goDiv DefaultDPI 2)) DefaultDPI

/-! ## The snarf buffer (clipboard) -/

/-- A Go `byte`. -/
abbrev Byte := UInt8

/-- A Go `string`: an immutable sequence of bytes. -/
abbrev GoString := List Byte

/-- The conversion `string(data)`: it keeps the bytes. -/
def stringOfBytes (data : List Byte) : GoString := data

/-- The conversion `[]byte(s)`: it keeps the bytes. -/
def bytesOfString (s : GoString) : List Byte := s

/-- An `error` value produced by the clipboard package. -/
structure ClipboardError where
  what : String
  deriving DecidableEq, Repr

/-- The `error` values that the functions of `display.go` return: one handed
over by the clipboard package, or one made by `fmt.Errorf`. The nil error is
`none` of `Option GoError`. -/
inductive GoError where
  | clipboard (e : ClipboardError)
  | errorf (msg : String)
  deriving DecidableEq, Repr

/-- The builtin `copy(dst, src)`: the first `min(len(dst), len(src))` elements
of `dst` are replaced by those of `src`; the value is the slice `dst` afterwards
(the number of elements copied, which `copy` returns, is not used by the callers). -/
def copy (dst src : List Byte) : List Byte :=
  src.take dst.length ++ dst.drop src.length

/-- What a call of `ReadSnarf` leaves behind: the contents of `buf` after the
call and the three results. -/
structure SnarfRead where
  buf : List Byte
  n : Int
  total : Int
  err : Option GoError
  deriving DecidableEq, Repr

/-- Go `func (d *Display) ReadSnarf(buf []byte) (int, int, error)`.
The argument `readAll` is the outcome of the call `clipboard.ReadAll()`. -/
def ReadSnarf (readAll : Except ClipboardError GoString) (buf : List Byte) : SnarfRead :=
  match readAll with
  | .error err => ⟨buf, 0, 0, some (.clipboard err)⟩
  | .ok s =>
    let src := bytesOfString s
    if src.length ≤ buf.length then
      ⟨copy buf src, src.length, src.length, none⟩
    else
      ⟨copy buf (src.take buf.length), buf.length, src.length,
        some (.errorf "ReadSnarf: buffer is too short")⟩

/-- Modelled from the spec: the platform clipboard, which belongs to an external
package, as a single stored text. -/
structure Clipboard where
  text : GoString
  deriving DecidableEq, Repr

/-- Modelled from the spec: `clipboard.ReadAll()` gives the stored text. -/
def Clipboard.ReadAll (c : Clipboard) : Except ClipboardError GoString :=
  .ok c.text

/-- Modelled from the spec: `clipboard.WriteAll(s)` overwrites the stored text
with `s`; the first component is the error returned. -/
def Clipboard.WriteAll (_c : Clipboard) (s : GoString) : Option ClipboardError × Clipboard :=
  (none, ⟨s⟩)

/-- Go `func (d *Display) WriteSnarf(data []byte) error`, with the clipboard after
the call as second component. -/
def WriteSnarf (c : Clipboard) (data : List Byte) : Option GoError × Clipboard :=
  let (err, c') := c.WriteAll (stringOfBytes data)
  (err.map GoError.clipboard, c')

/-! ## The parts of the Go packages `image/color`, `image` and `image/draw`
that `AllocImage` calls -/

namespace color

/-- Go `color.RGBA`: four 8 bit channels. -/
structure RGBA where
  R : Byte
  G : Byte
  B : Byte
  A : Byte
  deriving DecidableEq, Repr

/-- The method `RGBA()` of `color.RGBA`: every channel widened to 16 bits,
`r |= r << 8`, which is `r * 257`. -/
def RGBA.RGBA (c : RGBA) : Nat × Nat × Nat × Nat :=
  (c.R.toNat * 257, c.G.toNat * 257, c.B.toNat * 257, c.A.toNat * 257)

end color

namespace image

/-- Go `image.Point` -/
structure Point where
  X : Int
  Y : Int
  deriving DecidableEq, Repr

/-- Go `image.ZP`, the zero point. -/
def ZP : Point := ⟨0, 0⟩

/-- Go `func (p Point) Sub(q Point) Point` -/
def Point.Sub (p q : Point) : Point := ⟨goSub p.X q.X, goSub p.Y q.Y⟩

/-- Go `image.Rectangle` -/
structure Rectangle where
  Min : Point
  Max : Point
  deriving DecidableEq, Repr

/-- Go `image.ZR`, the zero rectangle. -/
def ZR : Rectangle := ⟨ZP, ZP⟩

/-- Go `func (r Rectangle) Dx() int` -/
def Rectangle.Dx (r : Rectangle) : Int := goSub r.Max.X r.Min.X

/-- Go `func (r Rectangle) Dy() int` -/
def Rectangle.Dy (r : Rectangle) : Int := goSub r.Max.Y r.Min.Y

/-- Go `func (r Rectangle) Empty() bool` -/
def Rectangle.Empty (r : Rectangle) : Bool :=
  decide (r.Min.X ≥ r.Max.X) || decide (r.Min.Y ≥ r.Max.Y)

/-- Go `func (r Rectangle) Add(p Point) Rectangle` -/
def Rectangle.Add (r : Rectangle) (p : Point) : Rectangle :=
  ⟨⟨goAdd r.Min.X p.X, goAdd r.Min.Y p.Y⟩, ⟨goAdd r.Max.X p.X, goAdd r.Max.Y p.Y⟩⟩

/-- Go `func (r Rectangle) Intersect(s Rectangle) Rectangle` -/
def Rectangle.Intersect (r s : Rectangle) : Rectangle :=
  let t : Rectangle :=
    ⟨⟨if r.Min.X < s.Min.X then s.Min.X else r.Min.X,
      if r.Min.Y < s.Min.Y then s.Min.Y else r.Min.Y⟩,
     ⟨if r.Max.X > s.Max.X then s.Max.X else r.Max.X,
      if r.Max.Y > s.Max.Y then s.Max.Y else r.Max.Y⟩⟩
  if t.Empty then ZR else t

/-- Go `func (p Point) In(r Rectangle) bool` -/
def Point.In (p : Point) (r : Rectangle) : Bool :=
  decide (r.Min.X ≤ p.X) && decide (p.X < r.Max.X) &&
    decide (r.Min.Y ≤ p.Y) && decide (p.Y < r.Max.Y)

/-- Go `image.Uniform`: an infinite image of one colour. -/
structure Uniform where
  C : color.RGBA
  deriving DecidableEq, Repr

/-- Go `func NewUniform(c color.Color) *Uniform` -/
def NewUniform (c : color.RGBA) : Uniform := ⟨c⟩

/-- Go `func (c *Uniform) Bounds() Rectangle` -/
def Uniform.Bounds (_u : Uniform) : Rectangle :=
  ⟨⟨-1000000000, -1000000000⟩, ⟨1000000000, 1000000000⟩⟩

/-- Go `func (c *Uniform) At(x, y int) color.Color` -/
def Uniform.At (u : Uniform) (_x _y : Int) : color.RGBA := u.C

/-- Go `image.RGBA`: a pixel buffer of four bytes per pixel, rows `Stride` bytes apart. -/
structure RGBA where
  Pix : List Byte
  Stride : Int
  Rect : Rectangle
  deriving DecidableEq, Repr

/-- Go `func mul3NonNeg(x, y, z int) int`: the product, or `-1` when an argument is
negative or a step of the multiplication overflows. -/
def mul3NonNeg (x y z : Int) : Int :=
  if x < 0 ∨ y < 0 ∨ z < 0 then -1
  else if 2 ^ 64 ≤ x * y then -1
  else if 2 ^ 64 ≤ x * y * z then -1
  else if maxInt < x * y * z then -1
  else x * y * z

/-- Go `func pixelBufferLength(bytesPerPixel int, r Rectangle, imageTypeName string) int`;
`none` stands for the panic "Rectangle has huge or negative dimensions". -/
def pixelBufferLength (bytesPerPixel : Int) (r : Rectangle) : Option Int :=
  let totalLength := mul3NonNeg bytesPerPixel r.Dx r.Dy
  if totalLength < 0 then none else some totalLength

/-- Go `func NewRGBA(r Rectangle) *RGBA`: a zeroed buffer; `none` when it panics. -/
def NewRGBA (r : Rectangle) : Option RGBA :=
  match pixelBufferLength 4 r with
  | none => none
  | some len => some ⟨List.replicate len.toNat 0, goMul 4 r.Dx, r⟩

/-- Go `func (p *RGBA) Bounds() Rectangle` -/
def RGBA.Bounds (m : RGBA) : Rectangle := m.Rect

/-- Go `func (p *RGBA) PixOffset(x, y int) int` -/
def RGBA.PixOffset (m : RGBA) (x y : Int) : Int :=
  goAdd (goMul (goSub y m.Rect.Min.Y) m.Stride) (goMul (goSub x m.Rect.Min.X) 4)

/-- The element `s[i]` of a slice; `none` when the index is out of range. -/
def index (s : List Byte) (i : Int) : Option Byte :=
  if i < 0 then none else s.get? i.toNat

/-- Go `func (p *RGBA) At(x, y int) color.Color`: the zero colour outside `Rect`,
the four bytes at `PixOffset(x, y)` inside; `none` when the slice expression
`p.Pix[i : i+4 : i+4]` panics. -/
def RGBA.At (m : RGBA) (x y : Int) : Option color.RGBA :=
  if !(Point.In ⟨x, y⟩ m.Rect) then some ⟨0, 0, 0, 0⟩
  else
    let i := m.PixOffset x y
    match index m.Pix i, index m.Pix (i + 1), index m.Pix (i + 2), index m.Pix (i + 3) with
    | some r, some g, some b, some a => some ⟨r, g, b, a⟩
    | _, _, _, _ => none

end image

namespace draw

/-- Go `func clip(dst, r, src, sp, mask, mp)` for a nil mask: the rectangle `r`
cut down to the bounds of `dst` and to the bounds of `src` moved by `r.Min - sp`. -/
def clip (dst : image.RGBA) (r : image.Rectangle) (src : image.Uniform)
    (sp : image.Point) : image.Rectangle :=
  let orig := r.Min
  let r := r.Intersect dst.Bounds
  r.Intersect (src.Bounds.Add (orig.Sub sp))

/-- The byte `uint8(s >> 8)` that `drawFillSrc` stores for channel `k` of the
colour `c`. -/
def channel (c : color.RGBA) (k : Nat) : Byte :=
  let (sr, sg, sb, sa) := c.RGBA
  match k with
  | 0 => UInt8.ofNat (sr / 256 % 256)
  | 1 => UInt8.ofNat (sg / 256 % 256)
  | 2 => UInt8.ofNat (sb / 256 % 256)
  | _ => UInt8.ofNat (sa / 256 % 256)

/-- Go `func drawFillSrc(dst *image.RGBA, r image.Rectangle, sr, sg, sb, sa uint32)`,
by its effect: the byte of `dst.Pix` at index `i` belongs to channel `i % 4` of the
pixel in row `i / Stride` and column `i % Stride / 4` of `dst.Rect`, and it is
overwritten when that pixel lies in `r`. -/
def drawFillSrc (dst : image.RGBA) (r : image.Rectangle) (c : color.RGBA) : image.RGBA :=
  { dst with
    Pix := dst.Pix.enum.map fun (i, b) =>
      let y := dst.Rect.Min.Y + (i : Int) / dst.Stride
      let x := dst.Rect.Min.X + (i : Int) % dst.Stride / 4
      if image.Point.In ⟨x, y⟩ r then channel c (i % 4) else b }

/-- Go `draw.Draw(dst, r, src, sp, draw.Src)` for an `*image.RGBA` destination and
an `*image.Uniform` source. -/
def Draw (dst : image.RGBA) (r : image.Rectangle) (src : image.Uniform)
    (sp : image.Point) : image.RGBA :=
  let r := clip dst r src sp
  if r.Empty then dst else drawFillSrc dst r src.C

end draw

/-! ## `AllocImage` -/

/-- The value of the field `m` of an `Image`: the two kinds of `image.Image`
that `AllocImage` stores there. -/
inductive Backing where
  | uniform (u : image.Uniform)
  | rgba (m : image.RGBA)
  deriving DecidableEq, Repr

/-- Go `Bounds()` of the stored image. -/
def Backing.Bounds : Backing → image.Rectangle
  | .uniform u => u.Bounds
  | .rgba m => m.Bounds

/-- Go `At(x, y)` of the stored image. -/
def Backing.At : Backing → Int → Int → Option color.RGBA
  | .uniform u, x, y => some (u.At x y)
  | .rgba m, x, y => m.At x y

/-- Modelled from the spec: the struct `Image` is declared outside `display.go`;
these are the three fields that `AllocImage` sets. -/
structure Image where
  Display : Option Display
  R : image.Rectangle
  m : Backing
  deriving DecidableEq, Repr

/-- Go `func (d *Display) AllocImage(r image.Rectangle, pix Pix, repl bool, val Color) (*Image, error)`.
The types `Pix` and `Color` and the method `rgba` of `Color` are declared outside
`display.go` and are parameters here. The value `none` stands for a panic of
`image.NewRGBA`. -/
def AllocImage {Pix Color : Type} (rgba : Color → color.RGBA) (d : Option Display)
    (r : image.Rectangle) (_pix : Pix) (repl : Bool) (val : Color) :
    Option (Image × Option GoError) :=
  let c := rgba val
  if repl && r.Max.X == 1 && r.Max.Y == 1 then
    some (⟨d, r, .uniform (image.NewUniform c)⟩, none)
  else
    match image.NewRGBA r with
    | none => none
    | some m =>
      let m := draw.Draw m m.Bounds ⟨c⟩ image.ZP
      some (⟨d, r, .rgba m⟩, none)

example : AllocImage id none ⟨⟨0, 0⟩, ⟨2, 1⟩⟩ () true ⟨1, 2, 3, 4⟩
    = some (⟨none, ⟨⟨0, 0⟩, ⟨2, 1⟩⟩, .rgba ⟨[1, 2, 3, 4, 1, 2, 3, 4], 8, ⟨⟨0, 0⟩, ⟨2, 1⟩⟩⟩⟩, none) := by
  decide
example : (AllocImage id none ⟨⟨5, 5⟩, ⟨6, 6⟩⟩ () true ⟨1, 2, 3, 4⟩)
    = some (⟨none, ⟨⟨5, 5⟩, ⟨6, 6⟩⟩, .rgba ⟨[1, 2, 3, 4], 4, ⟨⟨5, 5⟩, ⟨6, 6⟩⟩⟩⟩, none) := by
  decide
example : (AllocImage id none ⟨⟨-3, -3⟩, ⟨1, 1⟩⟩ () true ⟨1, 2, 3, 4⟩)
    = some (⟨none, ⟨⟨-3, -3⟩, ⟨1, 1⟩⟩, .uniform ⟨⟨1, 2, 3, 4⟩⟩⟩, none) := by
  decide
example : (AllocImage id none ⟨⟨3, 3⟩, ⟨1, 1⟩⟩ () false ⟨1, 2, 3, 4⟩) = none := by
  decide
example : image.RGBA.At ⟨[1, 2, 3, 4, 5, 6, 7, 8], 8, ⟨⟨0, 0⟩, ⟨2, 1⟩⟩⟩ 1 0 = some ⟨5, 6, 7, 8⟩ := by
  decide
/-! ## Lemmas on the machine integers -/

theorem wrapInt_of_inRange {x : Int} (h : InIntRange x) : wrapInt x = x := by
  obtain ⟨h1, h2⟩ := h
  unfold minInt at h1
  unfold maxInt at h2
  unfold wrapInt
  omega

theorem tdiv_hundred_of_nonneg {a : Int} (h : 0 ≤ a) : Int.tdiv a 100 = a / 100 :=
  Int.tdiv_eq_ediv h (by decide)

theorem tdiv_hundred_of_neg {a : Int} (h : a < 0) : Int.tdiv a 100 = -((-a) / 100) := by
  have e : a = -(-a) := by omega
  conv_lhs => rw [e, Int.neg_tdiv, Int.tdiv_eq_ediv (by omega) (by decide)]

theorem tdiv_hundred_inRange {a : Int} (h : InIntRange a) : InIntRange (Int.tdiv a 100) := by
  obtain ⟨h1, h2⟩ := h
  unfold minInt at h1
  unfold maxInt at h2
  unfold InIntRange minInt maxInt
  rcases lt_or_le a 0 with hneg | hpos
  · rw [tdiv_hundred_of_neg hneg]; omega
  · rw [tdiv_hundred_of_nonneg hpos]; omega

theorem goDiv_baseline_two : goDiv DefaultDPI 2 = 50 := by decide

/-- Above the baseline and without overflow `ScaleSize` is the truncated
quotient of `n * DPI + 50` by `100` over the mathematical integers. -/
theorem ScaleSize_exact (d : Display) (n : Int) (hd : DefaultDPI < d.DPI)
    (hlo : minInt ≤ n * d.DPI) (hhi : n * d.DPI + 50 ≤ maxInt) :
    ScaleSize (some d) n = Int.tdiv (n * d.DPI + 50) 100 := by
  have hmul : InIntRange (n * d.DPI) := ⟨hlo, by omega⟩
  have hadd : InIntRange (n * d.DPI + 50) := ⟨by omega, hhi⟩
  simp only [ScaleSize, if_neg (not_le.mpr hd), goDiv_baseline_two]
  simp only [goDiv, goAdd, goMul, DefaultDPI]
  rw [wrapInt_of_inRange hmul, wrapInt_of_inRange hadd,
    wrapInt_of_inRange (tdiv_hundred_inRange hadd)]

/-! ## `ScaleSize` -/

/-- C1: for a display above the baseline DPI of 100, `ScaleSize(n)` is
`(n*DPI + 50) / 100` computed with Go's `int` operations: multiply, add half the
baseline, divide by the baseline with truncation; when nothing overflows that is
the truncated quotient of the mathematical integers; and with DPI 200,
`ScaleSize(10) = 20`. -/
theorem ScaleSize_eq_formula (d : Display) (n : Int) (hd : DefaultDPI < d.DPI) :
    ScaleSize (some d) n = goDiv (goAdd (goMul n d.DPI) 50) 100 ∧
    (minInt ≤ n * d.DPI → n * d.DPI + 50 ≤ maxInt →
      ScaleSize (some d) n = Int.tdiv (n * d.DPI + 50) 100) ∧
    ScaleSize (some ⟨200⟩) 10 = 20 := by
  refine ⟨?_, fun hlo hhi => ScaleSize_exact d n hd hlo hhi, by decide⟩
  simp only [ScaleSize, if_neg (not_le.mpr hd), goDiv_baseline_two]
  rfl

theorem ScaleSize_eq_formula_witness :
    DefaultDPI < (⟨150⟩ : Display).DPI ∧
    (ScaleSize (some ⟨150⟩) 7 = goDiv (goAdd (goMul 7 (⟨150⟩ : Display).DPI) 50) 100 ∧
    (minInt ≤ 7 * (⟨150⟩ : Display).DPI → 7 * (⟨150⟩ : Display).DPI + 50 ≤ maxInt →
      ScaleSize (some ⟨150⟩) 7 = Int.tdiv (7 * (⟨150⟩ : Display).DPI + 50) 100) ∧
    ScaleSize (some ⟨200⟩) 10 = 20) :=
  ⟨by decide, ScaleSize_eq_formula ⟨150⟩ 7 (by decide)⟩

/-- C2: `ScaleSize(n)` is `n` itself when the receiver is nil or its DPI is at
or below the baseline `DefaultDPI = 100`; with DPI exactly 100 it is the
identity. -/
theorem ScaleSize_identity_at_or_below_baseline (d : Option Display) (n : Int)
    (h : d = none ∨ ∃ x, d = some x ∧ x.DPI ≤ DefaultDPI) :
    ScaleSize d n = n ∧ ScaleSize (some ⟨100⟩) n = n ∧ DefaultDPI = 100 := by
  refine ⟨?_, ?_, rfl⟩
  · rcases h with rfl | ⟨x, rfl, hx⟩
    · rfl
    · simp only [ScaleSize, if_pos hx]
  · simp [ScaleSize, DefaultDPI]

theorem ScaleSize_identity_at_or_below_baseline_witness :
    ((some ⟨96⟩ : Option Display) = none ∨
      ∃ x, (some ⟨96⟩ : Option Display) = some x ∧ x.DPI ≤ DefaultDPI) ∧
    (ScaleSize (some ⟨96⟩) (-13) = -13 ∧ ScaleSize (some ⟨100⟩) (-13) = -13 ∧
      DefaultDPI = 100) :=
  ⟨Or.inr ⟨⟨96⟩, rfl, by decide⟩,
   ScaleSize_identity_at_or_below_baseline (some ⟨96⟩) (-13) (Or.inr ⟨⟨96⟩, rfl, by decide⟩)⟩

/-- C3, as stated, fails: with DPI 199 and `n = -1` nothing overflows, the exact
value is `-1.99`, and `ScaleSize` gives `-1`, which is `99` hundredths away. -/
theorem ScaleSize_nearest_fails_for_negative :
    DefaultDPI < (⟨199⟩ : Display).DPI ∧ minInt ≤ -1 * 199 ∧ -1 * 199 + 50 ≤ maxInt ∧
    ScaleSize (some ⟨199⟩) (-1) = -1 ∧
    ¬ (|100 * ScaleSize (some ⟨199⟩) (-1) - (-1) * 199| ≤ 50) := by
  have e : ScaleSize (some ⟨199⟩) (-1) = -1 := by decide
  refine ⟨by decide, by decide, by decide, e, ?_⟩
  rw [e]
  norm_num

/-- C3, amended: for every `n ≥ 0` and every DPI above the baseline 100, when
`n*DPI + 50` does not overflow, `ScaleSize(n)` is an integer nearest to
`n*DPI/100`, that is `|100*ScaleSize(n) - n*DPI| ≤ 50`; and `ScaleSize(100)` with
DPI 150 is 150. -/
theorem ScaleSize_nearest_of_nonneg (d : Display) (n : Int) (hn : 0 ≤ n)
    (hd : DefaultDPI < d.DPI) (hhi : n * d.DPI + 50 ≤ maxInt) :
    |100 * ScaleSize (some d) n - n * d.DPI| ≤ 50 ∧ ScaleSize (some ⟨150⟩) 100 = 150 := by
  refine ⟨?_, by decide⟩
  have hd' : 0 ≤ d.DPI := by unfold DefaultDPI at hd; omega
  have hnd : 0 ≤ n * d.DPI := Int.mul_nonneg hn hd'
  have hlo : minInt ≤ n * d.DPI := by unfold minInt; omega
  rw [ScaleSize_exact d n hd hlo hhi, tdiv_hundred_of_nonneg (by omega), abs_le]
  constructor <;> omega

theorem ScaleSize_nearest_of_nonneg_witness :
    (0 : Int) ≤ 3 ∧ DefaultDPI < (⟨125⟩ : Display).DPI ∧
    3 * (⟨125⟩ : Display).DPI + 50 ≤ maxInt ∧
    (|100 * ScaleSize (some ⟨125⟩) 3 - 3 * (⟨125⟩ : Display).DPI| ≤ 50 ∧
      ScaleSize (some ⟨150⟩) 100 = 150) :=
  ⟨by decide, by decide, by decide,
   ScaleSize_nearest_of_nonneg ⟨125⟩ 3 (by decide) (by decide) (by decide)⟩

/-! ## `ReadSnarf` and `WriteSnarf` -/

theorem copy_length (dst src : List Byte) : (copy dst src).length = dst.length := by
  simp only [copy, List.length_append, List.length_take, List.length_drop]
  omega

theorem copy_take (dst src : List Byte) :
    (copy dst src).take (min src.length dst.length) = src.take (min src.length dst.length) := by
  unfold copy
  rw [List.take_append_eq_append_take, List.take_take, List.length_take]
  have e : min src.length dst.length - min dst.length src.length = 0 := by omega
  rw [e, List.take_zero, List.append_nil]
  congr 1
  omega

theorem copy_drop (dst src : List Byte) :
    (copy dst src).drop (min src.length dst.length) = dst.drop (min src.length dst.length) := by
  unfold copy
  rw [List.drop_append_eq_append_drop, List.length_take, List.drop_drop]
  have e : min src.length dst.length - min dst.length src.length = 0 := by omega
  rw [e, List.drop_of_length_le (by rw [List.length_take]; omega), List.nil_append]
  rcases Nat.le_total src.length dst.length with h | h
  · rw [Nat.min_eq_left h, Nat.add_zero]
  · rw [List.drop_of_length_le (by omega), List.drop_of_length_le (by omega)]

/-- What `ReadSnarf` returns when the clipboard text fits into the buffer. -/
theorem ReadSnarf_fits (src buf : List Byte) (h : src.length ≤ buf.length) :
    ReadSnarf (.ok src) buf = ⟨copy buf src, src.length, src.length, none⟩ := by
  simp only [ReadSnarf, bytesOfString, if_pos h]

/-- What `ReadSnarf` returns when the clipboard text is longer than the buffer. -/
theorem ReadSnarf_truncates (src buf : List Byte) (h : buf.length < src.length) :
    ReadSnarf (.ok src) buf = ⟨src.take buf.length, buf.length, src.length,
      some (.errorf "ReadSnarf: buffer is too short")⟩ := by
  have hl : (src.take buf.length).length = buf.length := by
    rw [List.length_take]; omega
  have hc : copy buf (src.take buf.length) = src.take buf.length := by
    unfold copy
    rw [hl, List.take_take, Nat.min_self, List.drop_of_length_le (le_refl _), List.append_nil]
  simp only [ReadSnarf, bytesOfString, if_neg (not_le.mpr h), hc]

/-- C4: when the clipboard is read successfully as `src`, `ReadSnarf(buf)`
returns `min(len(src), len(buf))` bytes written and `len(src)` bytes available,
the buffer keeps its length, its first bytes written are those of `src` and the
rest is unchanged, and the error is nil when `len(src) <= len(buf)` and
"ReadSnarf: buffer is too short" otherwise; "hello" into 3 bytes gives
`(3, 5, error)` and "hel", "hi" into 10 bytes gives `(2, 2, nil)`. -/
theorem ReadSnarf_ok (src buf : List Byte) :
    (ReadSnarf (.ok src) buf).n = ((min src.length buf.length : Nat) : Int) ∧
    (ReadSnarf (.ok src) buf).total = (src.length : Int) ∧
    (ReadSnarf (.ok src) buf).buf.length = buf.length ∧
    (ReadSnarf (.ok src) buf).buf.take (min src.length buf.length)
      = src.take (min src.length buf.length) ∧
    (ReadSnarf (.ok src) buf).buf.drop (min src.length buf.length)
      = buf.drop (min src.length buf.length) ∧
    (ReadSnarf (.ok src) buf).err
      = (if src.length ≤ buf.length then none
         else some (.errorf "ReadSnarf: buffer is too short")) ∧
    ReadSnarf (.ok [104, 101, 108, 108, 111]) [0, 0, 0]
      = ⟨[104, 101, 108], 3, 5, some (.errorf "ReadSnarf: buffer is too short")⟩ ∧
    ReadSnarf (.ok [104, 105]) [0, 0, 0, 0, 0, 0, 0, 0, 0, 0]
      = ⟨[104, 105, 0, 0, 0, 0, 0, 0, 0, 0], 2, 2, none⟩ := by
  refine ⟨?_, ?_, ?_, ?_, ?_, ?_, by decide, by decide⟩
  all_goals
    rcases Nat.lt_or_ge buf.length src.length with h | h
    · have hl : (src.take buf.length).length = buf.length := by
        rw [List.length_take]; omega
      rw [ReadSnarf_truncates src buf h]
      first
        | done
        | simp only [Nat.min_eq_right (Nat.le_of_lt h), if_neg (not_le.mpr h), hl,
            List.drop_of_length_le (le_of_eq hl), List.drop_of_length_le (le_refl buf.length),
            List.take_take, Nat.min_self]
    · rw [ReadSnarf_fits src buf h]
      first
        | done
        | (simp only [Nat.min_eq_left h, if_pos h]
           first
             | done
             | exact copy_length _ _
             | (have e := copy_take buf src; rwa [Nat.min_eq_left h] at e)
             | (have e := copy_drop buf src; rwa [Nat.min_eq_left h] at e))

/-- C5: the doc comment of `ReadSnarf` promises a nil error when the only
problem is a short buffer, but for the clipboard "hello" and a 3 byte buffer the
code returns the error "ReadSnarf: buffer is too short". -/
theorem ReadSnarf_short_buffer_returns_error :
    (ReadSnarf (.ok [104, 101, 108, 108, 111]) [0, 0, 0]).err
      = some (.errorf "ReadSnarf: buffer is too short") ∧
    (ReadSnarf (.ok [104, 101, 108, 108, 111]) [0, 0, 0]).err ≠ none := by
  decide

/-- C6, as stated, fails: for a zero-length buffer and the clipboard "x",
`ReadSnarf` returns the buffer-too-short error with `bytesWritten = 0`. -/
theorem ReadSnarf_too_short_with_zero_bytes :
    ReadSnarf (.ok [120]) [] = ⟨[], 0, 1, some (.errorf "ReadSnarf: buffer is too short")⟩ ∧
    ¬ ((ReadSnarf (.ok [120]) []).err = some (.errorf "ReadSnarf: buffer is too short") →
        0 < (ReadSnarf (.ok [120]) []).n) := by
  decide

/-- C6, amended: for every buffer of length at least one and every outcome of
reading the clipboard, the buffer-too-short error comes with `bytesWritten > 0`
(it is `len(buf)`), and a clipboard-access error comes with `bytesWritten = 0`. -/
theorem ReadSnarf_errors_distinguished (r : Except ClipboardError GoString)
    (buf : List Byte) (hbuf : 0 < buf.length) :
    ((ReadSnarf r buf).err = some (.errorf "ReadSnarf: buffer is too short") →
      0 < (ReadSnarf r buf).n ∧ (ReadSnarf r buf).n = (buf.length : Int)) ∧
    (∀ e, (ReadSnarf r buf).err = some (.clipboard e) → (ReadSnarf r buf).n = 0) := by
  cases r with
  | error e => simp [ReadSnarf]
  | ok s =>
    by_cases h : s.length ≤ buf.length
    · simp [ReadSnarf, bytesOfString, h]
    · simp [ReadSnarf, bytesOfString, h]
      exact hbuf

theorem ReadSnarf_errors_distinguished_witness :
    0 < ([0, 0, 0] : List Byte).length ∧
    (((ReadSnarf (.ok [104, 101, 108, 108, 111]) [0, 0, 0]).err
        = some (.errorf "ReadSnarf: buffer is too short") →
      0 < (ReadSnarf (.ok [104, 101, 108, 108, 111]) [0, 0, 0]).n ∧
      (ReadSnarf (.ok [104, 101, 108, 108, 111]) [0, 0, 0]).n
        = (([0, 0, 0] : List Byte).length : Int)) ∧
    (∀ e, (ReadSnarf (.ok [104, 101, 108, 108, 111]) [0, 0, 0]).err = some (.clipboard e) →
      (ReadSnarf (.ok [104, 101, 108, 108, 111]) [0, 0, 0]).n = 0)) :=
  ⟨by decide, ReadSnarf_errors_distinguished (.ok [104, 101, 108, 108, 111]) [0, 0, 0] (by decide)⟩

/-- C7: when reading the clipboard fails with the error `e`, `ReadSnarf(buf)`
returns `(0, 0, e)` and leaves `buf` as it was. -/
theorem ReadSnarf_clipboard_failure (e : ClipboardError) (buf : List Byte) :
    ReadSnarf (.error e) buf = ⟨buf, 0, 0, some (.clipboard e)⟩ := by
  rfl

/-- C8: over the clipboard as a single stored text, whatever it held before,
`WriteSnarf(data)` returns nil and a following `ReadSnarf(buf)` with
`len(buf) >= len(data)` returns `(len(data), len(data), nil)` with the first
`len(data)` bytes of `buf` equal to `data` and the rest unchanged; writing "x"
and reading it back gives "x" with no error. -/
theorem WriteSnarf_ReadSnarf_roundtrip (prior : Clipboard) (data buf : List Byte)
    (h : data.length ≤ buf.length) :
    (WriteSnarf prior data).1 = none ∧
    (WriteSnarf prior data).2.text = data ∧
    ReadSnarf (WriteSnarf prior data).2.ReadAll buf
      = ⟨data ++ buf.drop data.length, data.length, data.length, none⟩ ∧
    (ReadSnarf (WriteSnarf prior data).2.ReadAll buf).buf.take data.length = data ∧
    ReadSnarf (WriteSnarf ⟨[111, 108, 100]⟩ [120]).2.ReadAll [0, 0] = ⟨[120, 0], 1, 1, none⟩ := by
  have e : ReadSnarf (WriteSnarf prior data).2.ReadAll buf
      = ⟨data ++ buf.drop data.length, data.length, data.length, none⟩ := by
    simp only [WriteSnarf, Clipboard.WriteAll, Clipboard.ReadAll, stringOfBytes, ReadSnarf,
      bytesOfString, if_pos h, copy, List.take_of_length_le h]
  refine ⟨rfl, rfl, e, ?_, by decide⟩
  rw [e]
  exact List.take_left' rfl

theorem WriteSnarf_ReadSnarf_roundtrip_witness :
    ([104, 105] : List Byte).length ≤ ([0, 0, 0] : List Byte).length ∧
    ((WriteSnarf ⟨[111, 108, 100, 101, 114]⟩ [104, 105]).1 = none ∧
    (WriteSnarf ⟨[111, 108, 100, 101, 114]⟩ [104, 105]).2.text = [104, 105] ∧
    ReadSnarf (WriteSnarf ⟨[111, 108, 100, 101, 114]⟩ [104, 105]).2.ReadAll [0, 0, 0]
      = ⟨[104, 105] ++ ([0, 0, 0] : List Byte).drop ([104, 105] : List Byte).length,
         ([104, 105] : List Byte).length, ([104, 105] : List Byte).length, none⟩ ∧
    (ReadSnarf (WriteSnarf ⟨[111, 108, 100, 101, 114]⟩ [104, 105]).2.ReadAll [0, 0, 0]).buf.take
      ([104, 105] : List Byte).length = [104, 105] ∧
    ReadSnarf (WriteSnarf ⟨[111, 108, 100]⟩ [120]).2.ReadAll [0, 0] = ⟨[120, 0], 1, 1, none⟩) :=
  ⟨by decide, WriteSnarf_ReadSnarf_roundtrip ⟨[111, 108, 100, 101, 114]⟩ [104, 105] [0, 0, 0]
    (by decide)⟩

/-! ## `AllocImage` -/

/-- The test that `AllocImage` makes before it returns a uniform image reads the
corner `r.Max` only: the image is uniform exactly when `repl` is set and
`r.Max` is the point `(1, 1)`. -/
theorem AllocImage_uniform_iff {Pix Color : Type} (rgba : Color → color.RGBA)
    (d : Option Display) (r : image.Rectangle) (pix : Pix) (repl : Bool) (val : Color) :
    (∃ img err u, AllocImage rgba d r pix repl val = some (img, err) ∧ img.m = .uniform u)
      ↔ (repl = true ∧ r.Max = ⟨1, 1⟩) := by
  constructor
  · rintro ⟨img, err, u, h, hm⟩
    by_cases hc : (repl && r.Max.X == 1 && r.Max.Y == 1) = true
    · simp only [Bool.and_eq_true, beq_iff_eq] at hc
      obtain ⟨⟨h1, h2⟩, h3⟩ := hc
      refine ⟨h1, ?_⟩
      cases hr : r.Max with
      | mk X Y =>
        rw [hr] at h2 h3
        simp only at h2 h3
        rw [h2, h3]
    · simp only [AllocImage, if_neg hc] at h
      cases hn : image.NewRGBA r with
      | none => simp [hn] at h
      | some m0 =>
        simp only [hn, Option.some.injEq, Prod.mk.injEq] at h
        rw [← h.1] at hm
        simp at hm
  · rintro ⟨h1, h2⟩
    have hc : (repl && r.Max.X == 1 && r.Max.Y == 1) = true := by
      rw [h1, h2]; rfl
    have e : AllocImage rgba d r pix repl val
        = some (⟨d, r, .uniform (image.NewUniform (rgba val))⟩, none) := by
      simp only [AllocImage, if_pos hc]
    exact ⟨_, _, _, e, rfl⟩

/-- For the rectangle `(0,0)-(1,1)` with `repl` set, `AllocImage` returns, with a
nil error, a uniform image, which has the requested colour at every point. -/
theorem AllocImage_unit_rect_uniform {Pix Color : Type} (rgba : Color → color.RGBA)
    (d : Option Display) (pix : Pix) (val : Color) (x y : Int) :
    AllocImage rgba d ⟨⟨0, 0⟩, ⟨1, 1⟩⟩ pix true val
      = some (⟨d, ⟨⟨0, 0⟩, ⟨1, 1⟩⟩, .uniform ⟨rgba val⟩⟩, none) ∧
    (Backing.uniform ⟨rgba val⟩).At x y = some (rgba val) := by
  exact ⟨rfl, rfl⟩

/-! ### The pixel buffer branch -/

theorem channel_eq (c : color.RGBA) :
    draw.channel c 0 = c.R ∧ draw.channel c 1 = c.G ∧ draw.channel c 2 = c.B ∧
      draw.channel c 3 = c.A := by
  have key : ∀ n : Byte, UInt8.ofNat (n.toNat * 257 / 256 % 256) = n := by
    intro n
    have h : n.toNat < 256 := n.toNat_lt
    have e1 : n.toNat * 257 / 256 = n.toNat := by omega
    rw [e1, Nat.mod_eq_of_lt h]
    cases n with
    | mk v =>
      apply UInt8.ext
      simp [UInt8.ofNat, UInt8.toNat, Fin.ofNat, Nat.mod_eq_of_lt v.isLt]
  refine ⟨?_, ?_, ?_, ?_⟩ <;> simp only [draw.channel, color.RGBA.RGBA, key]

theorem pixel_decode (w a b k : Int) (ha : 0 ≤ a) (haw : a < w) (hk : 0 ≤ k) (hk4 : k < 4) :
    (b * (4 * w) + a * 4 + k) / (4 * w) = b ∧ (b * (4 * w) + a * 4 + k) % (4 * w) / 4 = a ∧
      (b * (4 * w) + a * 4 + k) % 4 = k := by
  have e : b * (4 * w) + a * 4 + k = (a * 4 + k) + b * (4 * w) := by ring
  have e4 : b * (4 * w) + a * 4 + k = (a * 4 + k) + (b * w) * 4 := by ring
  have hlt : a * 4 + k < 4 * w := by omega
  have hnn : 0 ≤ a * 4 + k := by omega
  refine ⟨?_, ?_, ?_⟩
  · rw [e, Int.add_mul_ediv_right _ _ (by omega), Int.ediv_eq_zero_of_lt hnn hlt, zero_add]
  · rw [e, Int.add_mul_emod_self, Int.emod_eq_of_lt hnn hlt]
    omega
  · rw [e4, Int.add_mul_emod_self]
    omega

theorem pixel_index_lt (w h a b k : Int) (ha : 0 ≤ a) (haw : a < w) (hb : 0 ≤ b) (hbh : b < h)
    (hk : 0 ≤ k) (hk4 : k < 4) :
    0 ≤ b * (4 * w) + a * 4 + k ∧ b * (4 * w) + a * 4 + k < 4 * w * h := by
  have h1 : b * (4 * w) ≤ (h - 1) * (4 * w) :=
    Int.mul_le_mul_of_nonneg_right (by omega) (by omega)
  have h2 : 0 ≤ b * (4 * w) := Int.mul_nonneg hb (by omega)
  have h3 : 4 * w * h = (h - 1) * (4 * w) + 4 * w := by ring
  constructor
  · omega
  · rw [h3]; omega

theorem drawFillSrc_index (x0 y0 x1 y1 : Int) (c : color.RGBA) (a b : Int) (k : Nat)
    (ha : 0 ≤ a) (haw : a < x1 - x0) (hb : 0 ≤ b) (hbh : b < y1 - y0) (hk : k < 4) :
    image.index (draw.drawFillSrc
        ⟨List.replicate (4 * (x1 - x0) * (y1 - y0)).toNat 0, 4 * (x1 - x0), ⟨⟨x0, y0⟩, ⟨x1, y1⟩⟩⟩
        ⟨⟨x0, y0⟩, ⟨x1, y1⟩⟩ c).Pix (b * (4 * (x1 - x0)) + a * 4 + k)
      = some (draw.channel c k) := by
  obtain ⟨hJ0, hJlt⟩ := pixel_index_lt (x1 - x0) (y1 - y0) a b k ha haw hb hbh (by omega) (by omega)
  obtain ⟨d1, d2, d3⟩ := pixel_decode (x1 - x0) a b k ha haw (by omega) (by omega)
  have hlt : (b * (4 * (x1 - x0)) + a * 4 + k).toNat < (4 * (x1 - x0) * (y1 - y0)).toNat := by
    omega
  have hmod : (b * (4 * (x1 - x0)) + a * 4 + k).toNat % 4 = k := by omega
  have hin : image.Point.In ⟨x0 + a, y0 + b⟩ ⟨⟨x0, y0⟩, ⟨x1, y1⟩⟩ = true := by
    simp only [image.Point.In, Bool.and_eq_true, decide_eq_true_eq]
    omega
  simp only [image.index, draw.drawFillSrc, if_neg (not_lt.mpr hJ0)]
  rw [List.get?_eq_getElem?, List.getElem?_map, List.getElem?_enum, List.getElem?_replicate,
    if_pos hlt]
  simp only [Option.map_some', Int.toNat_of_nonneg hJ0, d1, d2, hin, hmod, if_true]

theorem drawFillSrc_At (x0 y0 x1 y1 : Int) (c : color.RGBA) (x y : Int)
    (hw : x1 - x0 ≤ 1000000000) (hh : y1 - y0 ≤ 1000000000)
    (hxl : x0 ≤ x) (hxu : x < x1) (hyl : y0 ≤ y) (hyu : y < y1) :
    (draw.drawFillSrc
        ⟨List.replicate (4 * (x1 - x0) * (y1 - y0)).toNat 0, 4 * (x1 - x0), ⟨⟨x0, y0⟩, ⟨x1, y1⟩⟩⟩
        ⟨⟨x0, y0⟩, ⟨x1, y1⟩⟩ c).At x y = some c := by
  have hin : image.Point.In ⟨x, y⟩ ⟨⟨x0, y0⟩, ⟨x1, y1⟩⟩ = true := by
    simp only [image.Point.In, Bool.and_eq_true, decide_eq_true_eq]
    omega
  have hprod : (y - y0) * (4 * (x1 - x0)) ≤ 1000000000 * (4 * 1000000000) :=
    Int.mul_le_mul (by omega) (by omega) (by omega) (by omega)
  have hprod0 : 0 ≤ (y - y0) * (4 * (x1 - x0)) := Int.mul_nonneg (by omega) (by omega)
  have e1 : goSub y y0 = y - y0 :=
    wrapInt_of_inRange ⟨by unfold minInt; omega, by unfold maxInt; omega⟩
  have e2 : goSub x x0 = x - x0 :=
    wrapInt_of_inRange ⟨by unfold minInt; omega, by unfold maxInt; omega⟩
  have e3 : goMul (y - y0) (4 * (x1 - x0)) = (y - y0) * (4 * (x1 - x0)) :=
    wrapInt_of_inRange ⟨by unfold minInt; omega, by unfold maxInt; omega⟩
  have e4 : goMul (x - x0) 4 = (x - x0) * 4 :=
    wrapInt_of_inRange ⟨by unfold minInt; omega, by unfold maxInt; omega⟩
  have e5 : goAdd ((y - y0) * (4 * (x1 - x0))) ((x - x0) * 4)
      = (y - y0) * (4 * (x1 - x0)) + (x - x0) * 4 :=
    wrapInt_of_inRange ⟨by unfold minInt; omega, by unfold maxInt; omega⟩
  have hoff : (draw.drawFillSrc
        ⟨List.replicate (4 * (x1 - x0) * (y1 - y0)).toNat 0, 4 * (x1 - x0), ⟨⟨x0, y0⟩, ⟨x1, y1⟩⟩⟩
        ⟨⟨x0, y0⟩, ⟨x1, y1⟩⟩ c).PixOffset x y = (y - y0) * (4 * (x1 - x0)) + (x - x0) * 4 := by
    simp only [image.RGBA.PixOffset, draw.drawFillSrc, e1, e2, e3, e4, e5]
  have i0 := drawFillSrc_index x0 y0 x1 y1 c (x - x0) (y - y0) 0
    (by omega) (by omega) (by omega) (by omega) (by omega)
  have i1 := drawFillSrc_index x0 y0 x1 y1 c (x - x0) (y - y0) 1
    (by omega) (by omega) (by omega) (by omega) (by omega)
  have i2 := drawFillSrc_index x0 y0 x1 y1 c (x - x0) (y - y0) 2
    (by omega) (by omega) (by omega) (by omega) (by omega)
  have i3 := drawFillSrc_index x0 y0 x1 y1 c (x - x0) (y - y0) 3
    (by omega) (by omega) (by omega) (by omega) (by omega)
  simp only [Nat.cast_zero, add_zero, Nat.cast_one, Nat.cast_ofNat] at i0 i1 i2 i3
  obtain ⟨c0, c1, c2, c3⟩ := channel_eq c
  have hrect : (draw.drawFillSrc
        ⟨List.replicate (4 * (x1 - x0) * (y1 - y0)).toNat 0, 4 * (x1 - x0), ⟨⟨x0, y0⟩, ⟨x1, y1⟩⟩⟩
        ⟨⟨x0, y0⟩, ⟨x1, y1⟩⟩ c).Rect = ⟨⟨x0, y0⟩, ⟨x1, y1⟩⟩ := rfl
  simp only [image.RGBA.At, hrect, hin, hoff, i0, i1, i2, i3, c0, c1, c2, c3, Bool.not_true,
    Bool.false_eq_true, if_false]

theorem uniform_bounds_moved (c : color.RGBA) (x0 y0 : Int)
    (hx0 : -(2 ^ 62) ≤ x0) (hy0 : -(2 ^ 62) ≤ y0) (hx1 : x0 ≤ 2 ^ 62) (hy1 : y0 ≤ 2 ^ 62) :
    (image.Uniform.Bounds ⟨c⟩).Add (image.Point.Sub ⟨x0, y0⟩ image.ZP)
      = ⟨⟨x0 - 1000000000, y0 - 1000000000⟩, ⟨x0 + 1000000000, y0 + 1000000000⟩⟩ := by
  have e1 : goSub x0 0 = x0 :=
    (wrapInt_of_inRange ⟨by unfold minInt; omega, by unfold maxInt; omega⟩).trans (sub_zero x0)
  have e2 : goSub y0 0 = y0 :=
    (wrapInt_of_inRange ⟨by unfold minInt; omega, by unfold maxInt; omega⟩).trans (sub_zero y0)
  have e3 : goAdd (-1000000000) x0 = x0 - 1000000000 :=
    (wrapInt_of_inRange ⟨by unfold minInt; omega, by unfold maxInt; omega⟩).trans (by omega)
  have e4 : goAdd (-1000000000) y0 = y0 - 1000000000 :=
    (wrapInt_of_inRange ⟨by unfold minInt; omega, by unfold maxInt; omega⟩).trans (by omega)
  have e5 : goAdd 1000000000 x0 = x0 + 1000000000 :=
    (wrapInt_of_inRange ⟨by unfold minInt; omega, by unfold maxInt; omega⟩).trans (by omega)
  have e6 : goAdd 1000000000 y0 = y0 + 1000000000 :=
    (wrapInt_of_inRange ⟨by unfold minInt; omega, by unfold maxInt; omega⟩).trans (by omega)
  simp only [image.Uniform.Bounds, image.Rectangle.Add, image.Point.Sub, image.ZP, e1, e2, e3,
    e4, e5, e6]

theorem intersect_of_subset (r s : image.Rectangle) (hne : r.Empty = false)
    (h1 : s.Min.X ≤ r.Min.X) (h2 : s.Min.Y ≤ r.Min.Y) (h3 : r.Max.X ≤ s.Max.X)
    (h4 : r.Max.Y ≤ s.Max.Y) : r.Intersect s = r := by
  obtain ⟨⟨x0, y0⟩, ⟨x1, y1⟩⟩ := r
  simp only at h1 h2 h3 h4
  simp only [image.Rectangle.Intersect, if_neg (not_lt.mpr h1), if_neg (not_lt.mpr h2),
    if_neg (not_lt.mpr h3), if_neg (not_lt.mpr h4), hne]
  rfl

theorem intersect_of_empty (r s : image.Rectangle) (he : r.Empty = true) :
    (r.Intersect s).Empty = true := by
  have ht : image.Rectangle.Empty
      ⟨⟨if r.Min.X < s.Min.X then s.Min.X else r.Min.X,
        if r.Min.Y < s.Min.Y then s.Min.Y else r.Min.Y⟩,
       ⟨if r.Max.X > s.Max.X then s.Max.X else r.Max.X,
        if r.Max.Y > s.Max.Y then s.Max.Y else r.Max.Y⟩⟩ = true := by
    simp only [image.Rectangle.Empty, Bool.or_eq_true, decide_eq_true_eq, ge_iff_le] at he ⊢
    split_ifs <;> omega
  simp only [image.Rectangle.Intersect, ht, if_true]
  rfl

theorem NewRGBA_eq (x0 y0 x1 y1 : Int) (hX : x0 ≤ x1) (hY : y0 ≤ y1)
    (hw : x1 - x0 ≤ 1000000000) (hh : y1 - y0 ≤ 1000000000) :
    image.NewRGBA ⟨⟨x0, y0⟩, ⟨x1, y1⟩⟩
      = some ⟨List.replicate (4 * (x1 - x0) * (y1 - y0)).toNat 0, 4 * (x1 - x0),
          ⟨⟨x0, y0⟩, ⟨x1, y1⟩⟩⟩ := by
  have e1 : goSub x1 x0 = x1 - x0 :=
    wrapInt_of_inRange ⟨by unfold minInt; omega, by unfold maxInt; omega⟩
  have e2 : goSub y1 y0 = y1 - y0 :=
    wrapInt_of_inRange ⟨by unfold minInt; omega, by unfold maxInt; omega⟩
  have e3 : goMul 4 (x1 - x0) = 4 * (x1 - x0) :=
    wrapInt_of_inRange ⟨by unfold minInt; omega, by unfold maxInt; omega⟩
  have hp : (x1 - x0) * (y1 - y0) ≤ 1000000000 * 1000000000 :=
    Int.mul_le_mul hw hh (by omega) (by omega)
  have hp0 : 0 ≤ (x1 - x0) * (y1 - y0) := Int.mul_nonneg (by omega) (by omega)
  have hr : 4 * (x1 - x0) * (y1 - y0) = 4 * ((x1 - x0) * (y1 - y0)) := by ring
  have c1 : ¬ ((4 : Int) < 0 ∨ x1 - x0 < 0 ∨ y1 - y0 < 0) := by omega
  have c2 : ¬ ((2 : Int) ^ 64 ≤ 4 * (x1 - x0)) := by omega
  have c3 : ¬ ((2 : Int) ^ 64 ≤ 4 * (x1 - x0) * (y1 - y0)) := by rw [hr]; omega
  have c4 : ¬ (maxInt < 4 * (x1 - x0) * (y1 - y0)) := by rw [hr]; unfold maxInt; omega
  have c5 : ¬ (4 * (x1 - x0) * (y1 - y0) < 0) := by rw [hr]; omega
  simp only [image.NewRGBA, image.pixelBufferLength, image.mul3NonNeg, image.Rectangle.Dx,
    image.Rectangle.Dy, e1, e2, e3, if_neg c1, if_neg c2, if_neg c3, if_neg c4, if_neg c5]

/-- What `AllocImage` does outside its uniform branch, for a rectangle with
`Min <= Max`, sides of at most `10^9` and corners within `2^62` of the origin:
it returns, with a nil error, an image with `R = r` and `Display = d` over an
`image.RGBA` buffer with bounds `r` and `4 * Dx * Dy` bytes, in which every
pixel of `r` has the requested colour. -/
theorem AllocImage_buffer_filled {Pix Color : Type} (rgba : Color → color.RGBA)
    (d : Option Display) (r : image.Rectangle) (pix : Pix) (repl : Bool) (val : Color)
    (hc : ¬ (repl = true ∧ r.Max = ⟨1, 1⟩))
    (hX : r.Min.X ≤ r.Max.X) (hY : r.Min.Y ≤ r.Max.Y)
    (hw : r.Max.X - r.Min.X ≤ 1000000000) (hh : r.Max.Y - r.Min.Y ≤ 1000000000)
    (hx0 : -(2 ^ 62) ≤ r.Min.X) (hy0 : -(2 ^ 62) ≤ r.Min.Y)
    (hx1 : r.Max.X ≤ 2 ^ 62) (hy1 : r.Max.Y ≤ 2 ^ 62) :
    ∃ m : image.RGBA, AllocImage rgba d r pix repl val = some (⟨d, r, .rgba m⟩, none) ∧
      m.Bounds = r ∧ m.Stride = 4 * r.Dx ∧ (m.Pix.length : Int) = 4 * r.Dx * r.Dy ∧
      ∀ x y, image.Point.In ⟨x, y⟩ r = true → m.At x y = some (rgba val) := by
  obtain ⟨⟨x0, y0⟩, ⟨x1, y1⟩⟩ := r
  simp only at hX hY hw hh hx0 hy0 hx1 hy1
  have hcond : ¬ ((repl && x1 == 1 && y1 == 1) = true) := by
    intro h
    simp only [Bool.and_eq_true, beq_iff_eq] at h
    exact hc ⟨h.1.1, by rw [h.1.2, h.2]⟩
  have e1 : goSub x1 x0 = x1 - x0 :=
    wrapInt_of_inRange ⟨by unfold minInt; omega, by unfold maxInt; omega⟩
  have e2 : goSub y1 y0 = y1 - y0 :=
    wrapInt_of_inRange ⟨by unfold minInt; omega, by unfold maxInt; omega⟩
  have hp0 : 0 ≤ 4 * (x1 - x0) * (y1 - y0) :=
    Int.mul_nonneg (by omega) (by omega)
  refine ⟨draw.Draw ⟨List.replicate (4 * (x1 - x0) * (y1 - y0)).toNat 0, 4 * (x1 - x0),
      ⟨⟨x0, y0⟩, ⟨x1, y1⟩⟩⟩ ⟨⟨x0, y0⟩, ⟨x1, y1⟩⟩ ⟨rgba val⟩ image.ZP, ?_, ?_, ?_, ?_, ?_⟩
  · simp only [AllocImage, if_neg hcond, NewRGBA_eq x0 y0 x1 y1 hX hY hw hh, image.RGBA.Bounds]
  · unfold draw.Draw
    simp only
    split <;> rfl
  · unfold draw.Draw
    simp only [image.Rectangle.Dx, e1]
    split <;> rfl
  · unfold draw.Draw
    simp only [image.Rectangle.Dx, image.Rectangle.Dy, e1, e2]
    split
    · simp only [List.length_replicate, Int.toNat_of_nonneg hp0]
    · simp only [draw.drawFillSrc, List.length_map, List.enum_length, List.length_replicate,
        Int.toNat_of_nonneg hp0]
  · intro x y hin
    have hin' := hin
    simp only [image.Point.In, Bool.and_eq_true, decide_eq_true_eq] at hin'
    obtain ⟨⟨⟨hxl, hxu⟩, hyl⟩, hyu⟩ := hin'
    have hne : image.Rectangle.Empty ⟨⟨x0, y0⟩, ⟨x1, y1⟩⟩ = false := by
      simp only [image.Rectangle.Empty, Bool.or_eq_false_iff, decide_eq_false_iff_not, ge_iff_le]
      omega
    have hclip : draw.clip ⟨List.replicate (4 * (x1 - x0) * (y1 - y0)).toNat 0, 4 * (x1 - x0),
        ⟨⟨x0, y0⟩, ⟨x1, y1⟩⟩⟩ ⟨⟨x0, y0⟩, ⟨x1, y1⟩⟩ ⟨rgba val⟩ image.ZP
        = ⟨⟨x0, y0⟩, ⟨x1, y1⟩⟩ := by
      simp only [draw.clip, image.RGBA.Bounds]
      rw [intersect_of_subset _ _ hne (le_refl _) (le_refl _) (le_refl _) (le_refl _),
        uniform_bounds_moved (rgba val) x0 y0 hx0 hy0 (by omega) (by omega)]
      exact intersect_of_subset _ _ hne (by simp only; omega) (by simp only; omega)
        (by simp only; omega) (by simp only; omega)
    simp only [draw.Draw, hclip, hne, Bool.false_eq_true, if_false]
    exact drawFillSrc_At x0 y0 x1 y1 (rgba val) x y hw hh hxl hxu hyl hyu

theorem AllocImage_buffer_filled_witness :
    ∃ m : image.RGBA,
      AllocImage id (some ⟨100⟩) ⟨⟨5, 5⟩, ⟨7, 6⟩⟩ () true (⟨1, 2, 3, 4⟩ : color.RGBA)
        = some (⟨some ⟨100⟩, ⟨⟨5, 5⟩, ⟨7, 6⟩⟩, .rgba m⟩, none) ∧
      m.Bounds = ⟨⟨5, 5⟩, ⟨7, 6⟩⟩ ∧
      m.Stride = 4 * (⟨⟨5, 5⟩, ⟨7, 6⟩⟩ : image.Rectangle).Dx ∧
      (m.Pix.length : Int) = 4 * (⟨⟨5, 5⟩, ⟨7, 6⟩⟩ : image.Rectangle).Dx
        * (⟨⟨5, 5⟩, ⟨7, 6⟩⟩ : image.Rectangle).Dy ∧
      ∀ x y, image.Point.In ⟨x, y⟩ ⟨⟨5, 5⟩, ⟨7, 6⟩⟩ = true →
        m.At x y = some (id (⟨1, 2, 3, 4⟩ : color.RGBA)) :=
  AllocImage_buffer_filled id (some ⟨100⟩) ⟨⟨5, 5⟩, ⟨7, 6⟩⟩ () true ⟨1, 2, 3, 4⟩
    (by decide) (by decide) (by decide) (by decide) (by decide) (by decide) (by decide)
    (by decide) (by decide)

/-- C9: the doc comment of `AllocImage` promises a uniform image for a single
pixel rectangle with `repl` set, but the code tests `r.Max == (1, 1)`, not the
size: for the 1x1 rectangle `(5,5)-(6,6)` and opaque white it returns a one pixel
buffer, which reports the zero colour, not white, at the point `(1000, 1000)`. -/
theorem AllocImage_single_pixel_off_origin_not_uniform :
    (⟨⟨5, 5⟩, ⟨6, 6⟩⟩ : image.Rectangle).Dx = 1 ∧
    (⟨⟨5, 5⟩, ⟨6, 6⟩⟩ : image.Rectangle).Dy = 1 ∧
    AllocImage id (some ⟨100⟩) ⟨⟨5, 5⟩, ⟨6, 6⟩⟩ () true (⟨255, 255, 255, 255⟩ : color.RGBA)
      = some (⟨some ⟨100⟩, ⟨⟨5, 5⟩, ⟨6, 6⟩⟩,
          .rgba ⟨[255, 255, 255, 255], 4, ⟨⟨5, 5⟩, ⟨6, 6⟩⟩⟩⟩, none) ∧
    (Backing.rgba ⟨[255, 255, 255, 255], 4, ⟨⟨5, 5⟩, ⟨6, 6⟩⟩⟩).At 5 5
      = some ⟨255, 255, 255, 255⟩ ∧
    (Backing.rgba ⟨[255, 255, 255, 255], 4, ⟨⟨5, 5⟩, ⟨6, 6⟩⟩⟩).At 1000 1000
      = some ⟨0, 0, 0, 0⟩ := by
  decide

/-- C10: the comment in `AllocImage` says that `repl` is ignored when the image
size is above 1, but the code tests `r.Max == (1, 1)`, not the size: for the 4x4
rectangle `(-3,-3)-(1,1)` with `repl` set it returns a uniform image, whose bounds
are not `r`, and no pixel buffer. -/
theorem AllocImage_large_rect_ending_at_one_uniform :
    (⟨⟨-3, -3⟩, ⟨1, 1⟩⟩ : image.Rectangle).Dx = 4 ∧
    (⟨⟨-3, -3⟩, ⟨1, 1⟩⟩ : image.Rectangle).Dy = 4 ∧
    AllocImage id (some ⟨100⟩) ⟨⟨-3, -3⟩, ⟨1, 1⟩⟩ () true (⟨255, 0, 0, 255⟩ : color.RGBA)
      = some (⟨some ⟨100⟩, ⟨⟨-3, -3⟩, ⟨1, 1⟩⟩, .uniform ⟨⟨255, 0, 0, 255⟩⟩⟩, none) ∧
    (Backing.uniform ⟨⟨255, 0, 0, 255⟩⟩).Bounds ≠ ⟨⟨-3, -3⟩, ⟨1, 1⟩⟩ := by
  decide

end Duitdraw
